import Mathlib

/-!
Verification of the botabasic interpreter (src/src/main.rs).

The Rust source is shallowly embedded: each function of the source is
translated into an executable Lean definition, machine integers become
`Nat`/`Int` with explicit wrapping/saturation at the points where the source
casts, `f32` is modelled by `Rat` (exact rationals; the claims under
verification only exercise float values and operations on which `f32` and
exact rational arithmetic agree: round/floor/ceil/abs/int-casts at small
non-representation-sensitive inputs), and panics become `none`/`Except.error`.
-/

/-! ### Association lists, modelling `std::collections::HashMap` -/

/-- Model of `HashMap::insert`: replace the binding if the key is present,
otherwise add it.  Insertion order is irrelevant to every lookup. -/
def insertAssoc {α : Type} : List (String × α) → String → α → List (String × α)
  | [], k, v => [(k, v)]
  | (k', v') :: t, k, v => if k' = k then (k, v) :: t else (k', v') :: insertAssoc t k v

/-- Model of `HashMap::get`. -/
def lookupAssoc {α : Type} : List (String × α) → String → Option α
  | [], _ => none
  | (k', v') :: t, k => if k' = k then some v' else lookupAssoc t k

/-- Model of `HashMap::remove` (the removed binding is dropped). -/
def removeAssoc {α : Type} : List (String × α) → String → List (String × α)
  | [], _ => []
  | (k', v') :: t, k => if k' = k then t else (k', v') :: removeAssoc t k

/-! ### Character and string helpers -/

/-- ASCII whitespace per Rust `char::is_ascii_whitespace`
(space, tab, newline, form feed, carriage return). -/
def isAsciiWS (c : Char) : Bool :=
  c = ' ' ∨ c = '\t' ∨ c = '\n' ∨ c = '\x0c' ∨ c = '\r'

/-- Accumulator-style splitter used to model `str::split_ascii_whitespace`:
maximal runs of non-whitespace characters, empty pieces never produced. -/
def splitWSAux : List Char → List Char → List String
  | [], [] => []
  | [], acc => [String.mk acc.reverse]
  | c :: rest, acc =>
      if isAsciiWS c then
        (if acc = [] then splitWSAux rest [] else String.mk acc.reverse :: splitWSAux rest [])
      else splitWSAux rest (c :: acc)

/-- Model of `str::split_ascii_whitespace` (collected to a `Vec`). -/
def splitAsciiWhitespace (s : String) : List String := splitWSAux s.data []

/-- ASCII upper-casing of one character.  Rust `String::to_uppercase` is full
Unicode; the interpreter only ever compares mnemonic tokens, for which the
ASCII mapping coincides. -/
def upChar (c : Char) : Char :=
  if 'a' ≤ c ∧ c ≤ 'z' then Char.ofNat (c.toNat - 32) else c

/-- Model of `String::to_uppercase`. -/
def strUpper (s : String) : String := String.mk (s.data.map upChar)

/-- Whitespace predicate used to model Rust `str::trim`
(`char::is_whitespace`; the common ASCII cases). -/
def isTrimWS (c : Char) : Bool :=
  c = ' ' ∨ c = '\t' ∨ c = '\n' ∨ c = '\x0b' ∨ c = '\x0c' ∨ c = '\r'

/-- Model of `str::trim`. -/
def strTrim (s : String) : String :=
  String.mk (((s.data.dropWhile isTrimWS).reverse.dropWhile isTrimWS).reverse)

/-- First-character test, modelling `str::starts_with(char)`. -/
def strHeadIs (s : String) (c : Char) : Bool :=
  match s.data with
  | c' :: _ => c' = c
  | [] => false

/-- Remainder after the first character, modelling `split_at(1).1` on a
token whose first character is one ASCII byte. -/
def strTail (s : String) : String := String.mk s.data.tail

/-- Model of `str::split_terminator(',')`: like split, but a single trailing
empty piece (arising from a trailing separator) is dropped. -/
def splitTerminatorComma (s : String) : List String :=
  let ps := (s.data.splitOn ',').map String.mk
  match ps.getLast? with
  | some "" => ps.dropLast
  | _ => ps

/-! ### Integer parsing, modelling `str::parse::<u32>` / `str::parse::<i32>` -/

/-- Digits-only accumulator; `none` on an empty list or any non-digit. -/
def parseDigits : List Char → Option Nat
  | [] => none
  | cs => go cs 0
where
  go : List Char → Nat → Option Nat
    | [], acc => some acc
    | c :: rest, acc =>
        if '0' ≤ c ∧ c ≤ '9' then go rest (acc * 10 + (c.toNat - '0'.toNat))
        else none

/-- Model of `str::parse::<u32>`: optional leading `+`, decimal digits,
range-checked against `u32::MAX`. -/
def parseU32 (s : String) : Option Nat :=
  let cs := match s.data with
    | '+' :: rest => rest
    | cs => cs
  match parseDigits cs with
  | some n => if n < 2 ^ 32 then some n else none
  | none => none

/-- Model of `str::parse::<i32>`: optional sign, decimal digits,
range-checked against `i32` bounds. -/
def parseI32 (s : String) : Option Int :=
  match s.data with
  | '-' :: rest =>
      match parseDigits rest with
      | some n => if (n : Int) ≤ 2 ^ 31 then some (-(n : Int)) else none
      | none => none
  | '+' :: rest =>
      match parseDigits rest with
      | some n => if (n : Int) < 2 ^ 31 then some (n : Int) else none
      | none => none
  | cs =>
      match parseDigits cs with
      | some n => if (n : Int) < 2 ^ 31 then some (n : Int) else none
      | none => none

/-! ### The float model

`f32` is modelled by `Rat`.  The cast and rounding chains below mirror the
exact expressions of the source (`.round()`, `.floor()`, `.ceil()`, `.abs()`,
`as u32`, `as i32`); Rust float-to-integer `as` casts truncate toward zero and
saturate at the integer type's bounds. -/

/-- Truncation toward zero, the first stage of a Rust float-to-integer cast. -/
def truncTZ (q : Rat) : Int := if 0 ≤ q then ⌊q⌋ else ⌈q⌉

/-- Model of `f32::round`: nearest integer, ties away from zero. -/
def rustRound (q : Rat) : Int := if 0 ≤ q then ⌊q + 1 / 2⌋ else ⌈q - 1 / 2⌉

/-- Model of `f32::round` as a float-valued operation. -/
def roundF (q : Rat) : Rat := (rustRound q : Rat)

/-- Model of `f32::floor` as a float-valued operation. -/
def floorF (q : Rat) : Rat := (⌊q⌋ : Rat)

/-- Model of `f32::ceil` as a float-valued operation. -/
def ceilF (q : Rat) : Rat := (⌈q⌉ : Rat)

/-- Model of `f32::abs`. -/
def absF (q : Rat) : Rat := |q|

/-- Model of `as u32` on an `f32`: truncate toward zero, saturate to
`[0, u32::MAX]`. -/
def f32toU32 (q : Rat) : Nat :=
  if q < 0 then 0 else min (truncTZ q).toNat (2 ^ 32 - 1)

/-- Model of `as i32` on an `f32`: truncate toward zero, saturate to
`[i32::MIN, i32::MAX]`. -/
def f32toI32 (q : Rat) : Int :=
  max (-(2 ^ 31)) (min (truncTZ q) (2 ^ 31 - 1))

/-- Model of `as i32` on a `u32` (bit-reinterpreting wrap). -/
def u32asI32 (n : Nat) : Int :=
  if n < 2 ^ 31 then (n : Int) else (n : Int) - 2 ^ 32

/-- Model of `as i32` on a `usize` (truncate to the low 32 bits, then
reinterpret as signed). -/
def usizeAsI32 (n : Nat) : Int := u32asI32 (n % 2 ^ 32)

/-- Model of `as u32` on a `usize` (truncate to the low 32 bits). -/
def usizeAsU32 (n : Nat) : Nat := n % 2 ^ 32

/-- Placeholder decimal parser standing in for `str::parse::<f32>`
(sign, digits, optional fractional part).  The exact `f32` grammar and its
binary rounding are not modelled; no claim under verification depends on
text-to-float conversion. -/
def parseF32Model (s : String) : Option Rat :=
  match s.data with
  | '-' :: rest => (go rest).map Neg.neg
  | '+' :: rest => go rest
  | cs => go cs
where
  go (cs : List Char) : Option Rat :=
    match cs.splitOn '.' with
    | [w] => (parseDigits w).map (fun n => (n : Rat))
    | [w, f] =>
        match parseDigits w, parseDigits f with
        | some n, some m => some ((n : Rat) + (m : Rat) / (10 : Rat) ^ f.length)
        | _, _ => none
    | _ => none

/-! ### The value model (`enum Variable`) -/

/-- The tagged value type of the interpreter, `enum Variable` of the source.
`Natural(u32)` is carried as `Nat` (the parsers and casts producing it are
range-limited), `Int(i32)` as `Int`, `Float(f32)` as `Rat`. -/
inductive Variable where
  | Natural : Nat → Variable
  | Int : Int → Variable
  | Float : Rat → Variable
  | Char : Char → Variable
  | Bool : Bool → Variable
  | Str : String → Variable
  | List : List Variable → Variable

/-- Model of `Variable::to_float`: numeric projection, panicking (here
`none`) on every non-numeric variant. -/
def Variable.to_float : Variable → Option Rat
  | .Natural n => some (n : Rat)
  | .Int i => some (i : Rat)
  | .Float f => some f
  | _ => none

/-- Discriminant index of a `Variable`, in declaration order — the quantity
Rust's derived `PartialOrd` compares when the variants differ. -/
def varTag : Variable → Nat
  | .Natural _ => 0
  | .Int _ => 1
  | .Float _ => 2
  | .Char _ => 3
  | .Bool _ => 4
  | .Str _ => 5
  | .List _ => 6

mutual
/-- Model of the derived `PartialEq` for `Variable`: structural equality,
`false` whenever the variants differ. -/
def varBeq : Variable → Variable → Bool
  | .Natural a, .Natural b => a == b
  | .Int a, .Int b => a == b
  | .Float a, .Float b => a == b
  | .Char a, .Char b => a == b
  | .Bool a, .Bool b => a == b
  | .Str a, .Str b => a == b
  | .List a, .List b => varListBeq a b
  | _, _ => false
/-- Derived `PartialEq` for `Vec<Variable>`: equal lengths and
element-wise equality. -/
def varListBeq : List Variable → List Variable → Bool
  | [], [] => true
  | [], _ :: _ => false
  | _ :: _, [] => false
  | a :: xs, b :: ys => varBeq a b && varListBeq xs ys
end

/-- Total comparison on `Rat`, modelling `f32::partial_cmp` on the non-NaN
values the model represents. -/
def ratCmp (a b : Rat) : Ordering :=
  if a < b then .lt else if b < a then .gt else .eq

/-- Byte-lexicographic comparison of Rust `String`s; on UTF-8 this coincides
with code-point lexicographic order. -/
def strLex : List Char → List Char → Ordering
  | [], [] => .eq
  | [], _ :: _ => .lt
  | _ :: _, [] => .gt
  | a :: xs, b :: ys =>
      match compare a.toNat b.toNat with
      | .eq => strLex xs ys
      | r => r

mutual
/-- Model of the derived `PartialOrd::partial_cmp` for `Variable`: payloads
are compared when the variants match, and variants are otherwise ordered by
their declaration-order discriminants. -/
def varPcmp : Variable → Variable → Option Ordering
  | .Natural a, .Natural b => some (compare a b)
  | .Int a, .Int b => some (compare a b)
  | .Float a, .Float b => some (ratCmp a b)
  | .Char a, .Char b => some (compare a.toNat b.toNat)
  | .Bool a, .Bool b => some (compare (cond a 1 0) (cond b (1 : Nat) 0))
  | .Str a, .Str b => some (strLex a.data b.data)
  | .List a, .List b => varListPcmp a b
  | a, b => some (compare (varTag a) (varTag b))
/-- Derived lexicographic `partial_cmp` for `Vec<Variable>`: element-wise up
to the shorter length, then by length. -/
def varListPcmp : List Variable → List Variable → Option Ordering
  | [], [] => some .eq
  | [], _ :: _ => some .lt
  | _ :: _, [] => some .gt
  | a :: xs, b :: ys =>
      match varPcmp a b with
      | some .eq => varListPcmp xs ys
      | r => r
end

mutual
/-- Model of `impl Display for Variable`; a `List` renders through the
derived `Debug` of `Vec`, which brackets the elements and separates them by
a comma and a space, each element rendering through this same display (the
`Debug` of `Variable` forwards to `Display`).  The decimal rendering of an
`f32` is not modelled exactly (no claim depends on it). -/
def displayVar : Variable → String
  | .Natural n => toString n
  | .Int i => toString i
  | .Float q => toString q
  | .Char c => String.mk [c]
  | .Bool b => if b then "true" else "false"
  | .Str s => s
  | .List l => "[" ++ displayVarList l ++ "]"
/-- Comma-space–separated rendering of a list's elements, as produced by
`Formatter::debug_list`. -/
def displayVarList : List Variable → String
  | [] => ""
  | [v] => displayVar v
  | v :: w :: rest => displayVar v ++ ", " ++ displayVarList (w :: rest)
end

/-- The declared-type tag, `enum VarType` of the source. -/
inductive VarType where
  | Natural
  | Integer
  | Float
  | Character
  | Boolean
  | Str
  | List

/-- The numeric operand type, `enum Number` of the source. -/
inductive Number where
  | Natural : Nat → Number
  | Integer : Int → Number
  | Float : Rat → Number

/-- Model of `Number::from_var` (panics, here `none`, on non-numeric
variants). -/
def Number.from_var : Variable → Option Number
  | .Natural n => some (.Natural n)
  | .Int i => some (.Integer i)
  | .Float f => some (.Float f)
  | _ => none

/-- Model of `Number::to_float`. -/
def Number.to_float : Number → Rat
  | .Natural n => (n : Rat)
  | .Integer i => (i : Rat)
  | .Float f => f

/-- The control response an opcode reports back to the environment,
`enum CommandResponse` of the source (`Label(usize)` is carried as `Nat`). -/
inductive CommandResponse where
  | Declare : String → VarType → CommandResponse
  | Label : String → CommandResponse
  | Free : String → CommandResponse
  | Jump : Nat → CommandResponse
  | Nothing : CommandResponse

/-! ### The operation engine (`impl Command`)

Each opcode is a pure function on already-resolved operands.  A destination
mutation through `&mut Variable` is modelled by returning the destination's
new value; a Rust `panic!` is modelled by `none`. -/

/-- Model of `Command::add`.  A `List` destination is overwritten with a
combination of the operands; a `Str` destination with the concatenated
display forms; numeric destinations follow the float chain with the
destination-tag cast; any other destination panics. -/
def Command.add (location op1 op2 : Variable) : Option Variable :=
  match location with
  | .List _ =>
      match op1 with
      | .List l1 =>
          match op2 with
          | .List l2 => some (.List (l1 ++ l2))
          | _ => some (.List (l1 ++ [op2]))
      | _ => some (.List [op1, op2])
  | .Str _ => some (.Str (displayVar op1 ++ displayVar op2))
  | .Natural _ => do
      let f1 ← op1.to_float
      let f2 ← op2.to_float
      some (.Natural (f32toU32 (absF (roundF (f1 + f2)))))
  | .Int _ => do
      let f1 ← op1.to_float
      let f2 ← op2.to_float
      some (.Int (f32toI32 (roundF (f1 + f2))))
  | .Float _ => do
      let f1 ← op1.to_float
      let f2 ← op2.to_float
      some (.Float (f1 + f2))
  | _ => none

/-- Model of `Command::sub`.  The source computes the SUM of its operands
(`op1.to_float() + op2.to_float()`) in every branch; this embedding
reproduces that behavior verbatim. -/
def Command.sub (location : Variable) (op1 op2 : Number) : Option Variable :=
  match location with
  | .Natural _ => some (.Natural (f32toU32 (absF (roundF (op1.to_float + op2.to_float)))))
  | .Int _ => some (.Int (f32toI32 (roundF (op1.to_float + op2.to_float))))
  | .Float _ => some (.Float (op1.to_float + op2.to_float))
  | _ => none

/-- Model of `Command::mul`. -/
def Command.mul (location : Variable) (op1 op2 : Number) : Option Variable :=
  match location with
  | .Natural _ => some (.Natural (f32toU32 (absF (roundF (op1.to_float * op2.to_float)))))
  | .Int _ => some (.Int (f32toI32 (roundF (op1.to_float * op2.to_float))))
  | .Float _ => some (.Float (op1.to_float * op2.to_float))
  | _ => none

/-- Model of `Command::div`.  `f32` division by zero (infinity/NaN) is not
modelled — `Rat` division by zero yields `0`; no claim exercises it. -/
def Command.div (location : Variable) (op1 op2 : Number) : Option Variable :=
  match location with
  | .Natural _ => some (.Natural (f32toU32 (absF (roundF (op1.to_float / op2.to_float)))))
  | .Int _ => some (.Int (f32toI32 (roundF (op1.to_float / op2.to_float))))
  | .Float _ => some (.Float (op1.to_float / op2.to_float))
  | _ => none

/-- Rust `%` on floats: remainder with the dividend's sign,
`a - b * trunc(a / b)`; the `b = 0` (NaN) case is not modelled. -/
def fRem (a b : Rat) : Rat := a - b * (truncTZ (a / b) : Rat)

/-- Model of `Command::modulo`. -/
def Command.modulo (location : Variable) (op1 op2 : Number) : Option Variable :=
  match location with
  | .Natural _ => some (.Natural (f32toU32 (absF (roundF (fRem op1.to_float op2.to_float)))))
  | .Int _ => some (.Int (f32toI32 (roundF (fRem op1.to_float op2.to_float))))
  | .Float _ => some (.Float (fRem op1.to_float op2.to_float))
  | _ => none

/-- Model of `Command::round`: `Natural` destinations store
`op1.round().abs() as u32`, `Int` destinations `op1.round() as i32`,
`Float` destinations `op1.round()`; every other destination panics. -/
def Command.round (location : Variable) (op1 : Rat) : Option Variable :=
  match location with
  | .Natural _ => some (.Natural (f32toU32 (absF (roundF op1))))
  | .Int _ => some (.Int (f32toI32 (roundF op1)))
  | .Float _ => some (.Float (roundF op1))
  | _ => none

/-- Model of `Command::floor` (with `.abs()` on the `Natural` branch, like
`round`). -/
def Command.floor (location : Variable) (op1 : Rat) : Option Variable :=
  match location with
  | .Natural _ => some (.Natural (f32toU32 (absF (floorF op1))))
  | .Int _ => some (.Int (f32toI32 (floorF op1)))
  | .Float _ => some (.Float (floorF op1))
  | _ => none

/-- Model of `Command::ceil`.  Unlike `round` and `floor`, the source's
`Natural` branch is `op1.ceil() as u32` with NO `.abs()`, so a negative
ceiling saturates to `0` in the cast instead of folding to its magnitude. -/
def Command.ceil (location : Variable) (op1 : Rat) : Option Variable :=
  match location with
  | .Natural _ => some (.Natural (f32toU32 (ceilF op1)))
  | .Int _ => some (.Int (f32toI32 (ceilF op1)))
  | .Float _ => some (.Float (ceilF op1))
  | _ => none

/-- Model of `Command::and`. -/
def Command.and (location : Variable) (op1 op2 : Bool) : Option Variable :=
  match location with
  | .Bool _ => some (.Bool (op1 && op2))
  | _ => none

/-- Model of `Command::or`. -/
def Command.or (location : Variable) (op1 op2 : Bool) : Option Variable :=
  match location with
  | .Bool _ => some (.Bool (op1 || op2))
  | _ => none

/-- Model of `Command::xor` (boolean inequality). -/
def Command.xor (location : Variable) (op1 op2 : Bool) : Option Variable :=
  match location with
  | .Bool _ => some (.Bool (op1 != op2))
  | _ => none

/-- Model of `Command::not`. -/
def Command.not (location : Variable) (op1 : Bool) : Option Variable :=
  match location with
  | .Bool _ => some (.Bool (!op1))
  | _ => none

/-- Model of `Command::decl`: yields the declare-variable response (it does
not itself touch the variable table). -/
def Command.decl (var_name : String) (var_type : VarType) : CommandResponse :=
  .Declare var_name var_type

/-- Model of `Command::set`: the destination's payload is replaced by the
literal's when the tags coincide exactly; any mismatch panics. -/
def Command.set (location literal : Variable) : Option Variable :=
  match location with
  | .Bool _ => match literal with | .Bool nb => some (.Bool nb) | _ => none
  | .Char _ => match literal with | .Char nc => some (.Char nc) | _ => none
  | .Float _ => match literal with | .Float nf => some (.Float nf) | _ => none
  | .Int _ => match literal with | .Int ni => some (.Int ni) | _ => none
  | .List _ => match literal with | .List nl => some (.List nl) | _ => none
  | .Natural _ => match literal with | .Natural nn => some (.Natural nn) | _ => none
  | .Str _ => match literal with | .Str ns => some (.Str ns) | _ => none

/-- Model of `Command::free`. -/
def Command.free (location : String) : CommandResponse := .Free location

/-- Model of `Command::label`. -/
def Command.label (name : String) : CommandResponse := .Label name

/-- Model of `Command::jmp`. -/
def Command.jmp (label : Nat) : CommandResponse := .Jump label

/-- Model of `Command::jeq`: jump iff the operands are equal under the
derived `PartialEq`. -/
def Command.jeq (label : Nat) (o1 o2 : Variable) : CommandResponse :=
  if varBeq o1 o2 then .Jump label else .Nothing

/-- Model of `Command::jgt`: jump iff `o1 > o2`, i.e. iff the derived
`partial_cmp` yields `Greater`. -/
def Command.jgt (label : Nat) (o1 o2 : Variable) : CommandResponse :=
  if varPcmp o1 o2 = some .gt then .Jump label else .Nothing

/-- Model of `Command::jlt`: jump iff `o1 < o2`, i.e. iff the derived
`partial_cmp` yields `Less`.  NOTE: the dispatch table of `run_line` never
calls this function — the `"JLT"` arm constructs `Command::Jeq` instead. -/
def Command.jlt (label : Nat) (o1 o2 : Variable) : CommandResponse :=
  if varPcmp o1 o2 = some .lt then .Jump label else .Nothing

/-- Model of `Command::jne`: jump iff the operands are not equal. -/
def Command.jne (label : Nat) (o1 o2 : Variable) : CommandResponse :=
  if varBeq o1 o2 then .Nothing else .Jump label

/-- Model of `Command::convert`, the only cross-tag operation.  The
destination's variant selects the coercion table; unsupported pairs panic. -/
def Command.convert (location v : Variable) : Option Variable :=
  match location with
  | .Bool _ =>
      match v with
      | .Bool b2 => some (.Bool b2)
      | .Char c => if c = 'f' ∨ c = 'F' then some (.Bool false) else some (.Bool true)
      | .Float f => if f = 0 then some (.Bool false) else some (.Bool true)
      | .Int i => if i = 0 then some (.Bool false) else some (.Bool true)
      | .List l => if l.isEmpty then some (.Bool false) else some (.Bool true)
      | .Natural n => if n = 0 then some (.Bool false) else some (.Bool true)
      | .Str s => if s = "" then some (.Bool false) else some (.Bool true)
  | .Char _ =>
      match v with
      | .Bool b => some (.Char (if b then 't' else 'f'))
      | .Char oc => some (.Char oc)
      | _ => none
  | .Float _ =>
      match v with
      | .Bool b => some (.Float (if b then 1 else 0))
      | .Float f2 => some (.Float f2)
      | .Int i => some (.Float (i : Rat))
      | .Natural n => some (.Float (n : Rat))
      | .Str s => (parseF32Model s).map .Float
      | _ => none
  | .Int _ =>
      match v with
      | .Bool b => some (.Int (if b then 1 else 0))
      | .Float f => some (.Int (f32toI32 (roundF f)))
      | .Int i2 => some (.Int i2)
      | .Natural n => some (.Int (u32asI32 n))
      | .Str s => (parseI32 s).map .Int
      | _ => none
  | .List _ =>
      match v with
      | .List l2 => some (.List l2)
      | .Str s => some (.List (s.data.map .Char))
      | _ => some (.List [v])
  | .Natural _ =>
      match v with
      | .Float f => some (.Natural (f32toU32 (absF (roundF f))))
      | .Int i => if i = -(2 ^ 31) then none else some (.Natural i.natAbs)
      | .Natural n2 => some (.Natural n2)
      | .Bool b => some (.Natural (if b then 1 else 0))
      | .Str s => (parseU32 s).map .Natural
      | _ => none
  | .Str _ => some (.Str (displayVar v))

/-- Model of `Command::slice`: writes `list[start..end]` into a `List`
destination; an inverted or out-of-range bound panics, as does a non-`List`
destination. -/
def Command.slice (location : Variable) (list : List Variable)
    (start stop : Nat) : Option Variable :=
  match location with
  | .List _ =>
      if start ≤ stop ∧ stop ≤ list.length then
        some (.List ((list.drop start).take (stop - start)))
      else none
  | _ => none

/-- Model of `Command::index`: copies `list[index]` (panicking out of range)
into the destination through `Command::set`'s tag-matching rule. -/
def Command.index (location : Variable) (list : List Variable)
    (index : Nat) : Option Variable :=
  match list.get? index with
  | some value => Command.set location value
  | none => none

/-- Model of `Command::len`: the element count cast into a numeric
destination; any other destination panics. -/
def Command.len (location : Variable) (list : List Variable) : Option Variable :=
  match location with
  | .Float _ => some (.Float (list.length : Rat))
  | .Int _ => some (.Int (usizeAsI32 list.length))
  | .Natural _ => some (.Natural (usizeAsU32 list.length))
  | _ => none

/-- Model of `Command::insert`: at `index == len` push at the end, otherwise
`Vec::insert`, which shifts the suffix right and panics when
`index > len`. -/
def Command.insert (location : List Variable) (index : Nat)
    (item : Variable) : Option (List Variable) :=
  if index = location.length then
    some (location ++ [item])
  else
    if index ≤ location.length then
      some (location.take index ++ item :: location.drop index)
    else none

/-! ### The instruction decoder -/

/-- One decoded instruction: the mnemonic token as written plus its operand
tokens, `struct UnparsedCommand` of the source. -/
structure UnparsedCommand where
  command_name : String
  parameters : List String

/-- The static opcode → operand-arity table, `fn command_parameter_num_map`
of the source, built by the same insertion sequence (note the duplicated
`JGT` insertion, and that `INSERT` is never inserted). -/
def command_parameter_num_map : List (String × Nat) :=
  [("ADD", 3), ("SUB", 3), ("MUL", 3), ("DIV", 3), ("MOD", 3),
   ("ROUND", 2), ("FLOOR", 2), ("CEIL", 2),
   ("AND", 3), ("OR", 3), ("XOR", 3), ("NOT", 2),
   ("DECL", 2), ("SET", 2), ("FREE", 1), ("LABEL", 1),
   ("JMP", 1), ("JEQ", 3), ("JGT", 3), ("JLT", 3), ("JGT", 3), ("JNE", 3),
   ("PRINT", 1), ("INPUT", 1), ("CONVERT", 2),
   ("SLICE", 4), ("INDEX", 3), ("LEN", 2)].foldl
    (fun m kv => insertAssoc m kv.1 kv.2) []

/-- Model of `UnparsedCommand::from_line`.  The line is split on ASCII
whitespace; `words.get(0).unwrap()` panics on a blank line
(`Except.error ()`); when the UPPER-CASED first token is in the arity table,
the arity is looked up under the ORIGINAL first token
(`map.get(&command_name).unwrap()`, panicking when the original casing is
not itself a key) and `words[1..=arity]` is taken (panicking when the line
has fewer tokens than the arity); otherwise the line decodes to `none`
(a no-op). -/
def UnparsedCommand.from_line (line : String) (map : List (String × Nat)) :
    Except Unit (Option UnparsedCommand) :=
  match splitAsciiWhitespace line with
  | [] => .error ()
  | w0 :: rest =>
      if (lookupAssoc map (strUpper w0)).isSome then
        match lookupAssoc map w0 with
        | none => .error ()
        | some param_num =>
            if param_num ≤ rest.length then
              .ok (some ⟨w0, rest.take param_num⟩)
            else .error ()
      else .ok none

/-! ### The execution environment (`struct Program`) -/

/-- The mutable interpreter state of `struct Program` (the program text is
carried separately as a line list), extended with an input stream (the lines
standard input will yield) and the output accumulated so far, so that the
I/O opcodes are pure. -/
structure ProgState where
  vars : List (String × Variable)
  labels : List (String × Nat)
  current_line : Nat
  input : List String
  output : String

/-- Model of `Program::parse_literal`.  The source recurses on the pieces of
a `[`-literal without stripping the bracket, so the first piece again starts
with `[` and the recursion never terminates unless the piece names a
variable; `fuel` makes the embedding total, with exhaustion (`none`)
standing for that non-termination crash.  No claim depends on the parse of a
bracket literal. -/
def parse_literal (vars : List (String × Variable)) :
    Nat → String → Option Variable
  | 0, _ => none
  | fuel + 1, literal =>
      let literal := strTrim literal
      match lookupAssoc vars literal with
      | some v => some v
      | none =>
          if strHeadIs literal '-' then (parseI32 literal).map .Int
          else if strHeadIs literal '+' then (parseI32 (strTail literal)).map .Int
          else if strHeadIs literal '\"' then some (.Str (strTail literal))
          else if literal = "TRUE" then some (.Bool true)
          else if literal = "FALSE" then some (.Bool false)
          else if strHeadIs literal '[' then
            (splitTerminatorComma literal |>.mapM (parse_literal vars fuel)).map .List
          else if strHeadIs literal '\'' then
            match literal.data.get? 2 with
            | some c => some (.Char c)
            | none => none
          else (parseU32 literal).map .Natural

/-- Fuel sufficient for every terminating run of the source's
`parse_literal` on the given token. -/
def parse_literal_top (vars : List (String × Variable)) (literal : String) :
    Option Variable :=
  parse_literal vars (literal.length + 2) literal

/-- Model of `Program::get_var` / `Program::get_mut_var`: a table lookup,
panicking (`none`) when the name is unbound. -/
def get_var (s : ProgState) (name : String) : Option Variable :=
  lookupAssoc s.vars name

/-- Write-back through the `&mut Variable` returned by `get_mut_var`. -/
def set_var (s : ProgState) (name : String) (v : Variable) : ProgState :=
  { s with vars := insertAssoc s.vars name v }

/-- Model of `Program::get_num_var`. -/
def get_num_var (s : ProgState) (name : String) : Option Number := do
  Number.from_var (← get_var s name)

/-- Model of `Program::get_nat_var`:
`get_num_var(name).to_float().round().abs() as u32`. -/
def get_nat_var (s : ProgState) (name : String) : Option Nat := do
  some (f32toU32 (absF (roundF (← get_num_var s name).to_float)))

/-- Model of `Program::get_float_var`. -/
def get_float_var (s : ProgState) (name : String) : Option Rat := do
  some (← get_num_var s name).to_float

/-- Model of `Program::get_bool_var`. -/
def get_bool_var (s : ProgState) (name : String) : Option Bool := do
  match ← get_var s name with
  | .Bool b => some b
  | _ => none

/-- Model of `Program::get_str_var`. -/
def get_str_var (s : ProgState) (name : String) : Option String := do
  match ← get_var s name with
  | .Str str => some str
  | _ => none

/-- Model of `Program::get_list_var`. -/
def get_list_var (s : ProgState) (name : String) : Option (List Variable) := do
  match ← get_var s name with
  | .List l => some l
  | _ => none

/-- Model of `Program::get_label`: `labels.get(&name).unwrap()` — a fatal
lookup failure when the label has not been defined yet. -/
def get_label (s : ProgState) (name : String) : Option Nat :=
  lookupAssoc s.labels name

/-- The dispatch table of `Program::run_line`: resolves the operand tokens
exactly as the source does for each mnemonic arm, runs the opcode, and
returns the command's response together with the state as mutated through
the destination handle.  Every panic on the way is `none`.  The `"DECL"` arm
constructs `Command::Label` (not `Command::Decl`) and the `"JLT"` arm
constructs `Command::Jeq` (not `Command::Jlt`), exactly as in the source;
the `"INSERT"` arm exists even though `command_parameter_num_map` contains
no `"INSERT"` key. -/
def dispatch (s : ProgState) (cmd : UnparsedCommand) :
    Option (CommandResponse × ProgState) :=
  match cmd.command_name with
  | "ADD" =>
      match cmd.parameters with
      | p0 :: p1 :: p2 :: _ => do
          let var1 ← get_var s p1
          let var2 ← get_var s p2
          let loc ← get_var s p0
          let newLoc ← Command.add loc var1 var2
          some (.Nothing, set_var s p0 newLoc)
      | _ => none
  | "SUB" =>
      match cmd.parameters with
      | p0 :: p1 :: p2 :: _ => do
          let var1 ← get_num_var s p1
          let var2 ← get_num_var s p2
          let loc ← get_var s p0
          let newLoc ← Command.sub loc var1 var2
          some (.Nothing, set_var s p0 newLoc)
      | _ => none
  | "MUL" =>
      match cmd.parameters with
      | p0 :: p1 :: p2 :: _ => do
          let var1 ← get_num_var s p1
          let var2 ← get_num_var s p2
          let loc ← get_var s p0
          let newLoc ← Command.mul loc var1 var2
          some (.Nothing, set_var s p0 newLoc)
      | _ => none
  | "DIV" =>
      match cmd.parameters with
      | p0 :: p1 :: p2 :: _ => do
          let var1 ← get_num_var s p1
          let var2 ← get_num_var s p2
          let loc ← get_var s p0
          let newLoc ← Command.div loc var1 var2
          some (.Nothing, set_var s p0 newLoc)
      | _ => none
  | "MOD" =>
      match cmd.parameters with
      | p0 :: p1 :: p2 :: _ => do
          let var1 ← get_num_var s p1
          let var2 ← get_num_var s p2
          let loc ← get_var s p0
          let newLoc ← Command.modulo loc var1 var2
          some (.Nothing, set_var s p0 newLoc)
      | _ => none
  | "ROUND" =>
      match cmd.parameters with
      | p0 :: p1 :: _ => do
          let var ← get_float_var s p1
          let loc ← get_var s p0
          let newLoc ← Command.round loc var
          some (.Nothing, set_var s p0 newLoc)
      | _ => none
  | "FLOOR" =>
      match cmd.parameters with
      | p0 :: p1 :: _ => do
          let var ← get_float_var s p1
          let loc ← get_var s p0
          let newLoc ← Command.floor loc var
          some (.Nothing, set_var s p0 newLoc)
      | _ => none
  | "CEIL" =>
      match cmd.parameters with
      | p0 :: p1 :: _ => do
          let var ← get_float_var s p1
          let loc ← get_var s p0
          let newLoc ← Command.ceil loc var
          some (.Nothing, set_var s p0 newLoc)
      | _ => none
  | "AND" =>
      match cmd.parameters with
      | p0 :: p1 :: p2 :: _ => do
          let var1 ← get_bool_var s p1
          let var2 ← get_bool_var s p2
          let loc ← get_var s p0
          let newLoc ← Command.and loc var1 var2
          some (.Nothing, set_var s p0 newLoc)
      | _ => none
  | "OR" =>
      match cmd.parameters with
      | p0 :: p1 :: p2 :: _ => do
          let var1 ← get_bool_var s p1
          let var2 ← get_bool_var s p2
          let loc ← get_var s p0
          let newLoc ← Command.or loc var1 var2
          some (.Nothing, set_var s p0 newLoc)
      | _ => none
  | "XOR" =>
      match cmd.parameters with
      | p0 :: p1 :: p2 :: _ => do
          let var1 ← get_bool_var s p1
          let var2 ← get_bool_var s p2
          let loc ← get_var s p0
          let newLoc ← Command.xor loc var1 var2
          some (.Nothing, set_var s p0 newLoc)
      | _ => none
  | "NOT" =>
      match cmd.parameters with
      | p0 :: p1 :: _ => do
          let var ← get_bool_var s p1
          let loc ← get_var s p0
          let newLoc ← Command.not loc var
          some (.Nothing, set_var s p0 newLoc)
      | _ => none
  | "DECL" =>
      match cmd.parameters with
      | p0 :: _ => some (Command.label p0, s)
      | _ => none
  | "SET" =>
      match cmd.parameters with
      | p0 :: p1 :: _ => do
          let literal ← parse_literal_top s.vars p1
          let loc ← get_var s p0
          let newLoc ← Command.set loc literal
          some (.Nothing, set_var s p0 newLoc)
      | _ => none
  | "FREE" =>
      match cmd.parameters with
      | p0 :: _ => some (Command.free p0, s)
      | _ => none
  | "LABEL" =>
      match cmd.parameters with
      | p0 :: _ => some (Command.label p0, s)
      | _ => none
  | "JMP" =>
      match cmd.parameters with
      | p0 :: _ => do
          let label ← get_label s p0
          some (Command.jmp label, s)
      | _ => none
  | "JEQ" =>
      match cmd.parameters with
      | p0 :: p1 :: p2 :: _ => do
          let label ← get_label s p0
          let var1 ← get_var s p1
          let var2 ← get_var s p2
          some (Command.jeq label var1 var2, s)
      | _ => none
  | "JNE" =>
      match cmd.parameters with
      | p0 :: p1 :: p2 :: _ => do
          let label ← get_label s p0
          let var1 ← get_var s p1
          let var2 ← get_var s p2
          some (Command.jne label var1 var2, s)
      | _ => none
  | "JGT" =>
      match cmd.parameters with
      | p0 :: p1 :: p2 :: _ => do
          let label ← get_label s p0
          let var1 ← get_var s p1
          let var2 ← get_var s p2
          some (Command.jgt label var1 var2, s)
      | _ => none
  | "JLT" =>
      match cmd.parameters with
      | p0 :: p1 :: p2 :: _ => do
          let label ← get_label s p0
          let var1 ← get_var s p1
          let var2 ← get_var s p2
          some (Command.jeq label var1 var2, s)
      | _ => none
  | "PRINT" =>
      match cmd.parameters with
      | p0 :: _ => do
          let text ← get_str_var s p0
          some (.Nothing, { s with output := s.output ++ text })
      | _ => none
  | "INPUT" =>
      match cmd.parameters with
      | p0 :: _ => do
          let loc ← get_var s p0
          match loc with
          | .Str _ =>
              match s.input with
              | [] => some (.Nothing, set_var s p0 (.Str ""))
              | line :: rest =>
                  some (.Nothing, { set_var s p0 (.Str (line ++ "\n")) with input := rest })
          | _ => some (.Nothing, s)
      | _ => none
  | "CONVERT" =>
      match cmd.parameters with
      | p0 :: p1 :: _ => do
          let var ← get_var s p1
          let loc ← get_var s p0
          let newLoc ← Command.convert loc var
          some (.Nothing, set_var s p0 newLoc)
      | _ => none
  | "SLICE" =>
      match cmd.parameters with
      | p0 :: p1 :: p2 :: p3 :: _ => do
          let list ← get_list_var s p1
          let start ← get_nat_var s p2
          let stop ← get_nat_var s p3
          let loc ← get_var s p0
          let newLoc ← Command.slice loc list start stop
          some (.Nothing, set_var s p0 newLoc)
      | _ => none
  | "INDEX" =>
      match cmd.parameters with
      | p0 :: p1 :: p2 :: _ => do
          let list ← get_list_var s p1
          let idx ← get_nat_var s p2
          let loc ← get_var s p0
          let newLoc ← Command.index loc list idx
          some (.Nothing, set_var s p0 newLoc)
      | _ => none
  | "LEN" =>
      match cmd.parameters with
      | p0 :: p1 :: _ => do
          let list ← get_list_var s p1
          let loc ← get_var s p0
          let newLoc ← Command.len loc list
          some (.Nothing, set_var s p0 newLoc)
      | _ => none
  | "INSERT" =>
      match cmd.parameters with
      | p0 :: p1 :: p2 :: _ => do
          let idx ← get_nat_var s p1
          let item ← get_var s p2
          let loc ← get_var s p0
          match loc with
          | .List l => do
              let newList ← Command.insert l idx item
              some (.Nothing, set_var s p0 (.List newList))
          | _ => none
      | _ => none
  | _ => none

/-- The response application of `Program::run_line`: a `Declare` response
inserts the type-appropriate zero value, `Free` removes (panicking when the
name is unbound), `Jump` overwrites the instruction pointer, `Label` binds
the name to the current instruction pointer. -/
def zeroValue : VarType → Variable
  | .Boolean => .Bool false
  | .Character => .Char '\x00'
  | .Float => .Float 0
  | .Integer => .Int 0
  | .List => .List []
  | .Natural => .Natural 0
  | .Str => .Str ""

/-- Model of the `match ... { CommandResponse::... }` block at the end of
`Program::run_line`. -/
def apply_response (s : ProgState) : CommandResponse → Option ProgState
  | .Declare name t => some { s with vars := insertAssoc s.vars name (zeroValue t) }
  | .Free name =>
      match lookupAssoc s.vars name with
      | some _ => some { s with vars := removeAssoc s.vars name }
      | none => none
  | .Jump label => some { s with current_line := label }
  | .Label name => some { s with labels := insertAssoc s.labels name s.current_line }
  | .Nothing => some s

/-- Dispatch followed by response application — the interpretation of one
decoded command within `Program::run_line`. -/
def run_command (s : ProgState) (cmd : UnparsedCommand) : Option ProgState := do
  let (response, s') ← dispatch s cmd
  apply_response s' response

/-- Model of `Program::run_line`: decode the line (a fatal decode is `none`,
an unrecognized mnemonic is a silent no-op) and interpret the command. -/
def run_line (s : ProgState) (line : String) : Option ProgState :=
  match UnparsedCommand.from_line line command_parameter_num_map with
  | .error _ => none
  | .ok none => some s
  | .ok (some cmd) => run_command s cmd

/-- One iteration of the `while` loop of `Program::run_program`: run the
current line, then unconditionally advance the instruction pointer by one
(a jump first overwrites the pointer, the advance then moves past the
target line). -/
def run_step (lines : List String) (s : ProgState) : Option ProgState :=
  (run_line s (lines.getD s.current_line "")).map
    (fun t => { t with current_line := t.current_line + 1 })

/-- The state `Program::run_program` resets to before its loop: empty
variable table, empty label table, instruction pointer zero (the pending
input stream is a parameter; no output yet). -/
def initState (input : List String) : ProgState :=
  { vars := [], labels := [], current_line := 0, input := input, output := "" }

/-- The states reachable during a run of `Program::run_program` on the given
line list: the reset state, plus everything one guarded loop iteration
reaches from a reachable state. -/
inductive Reachable (lines : List String) : ProgState → Prop where
  | init (input : List String) : Reachable lines (initState input)
  | step {s s' : ProgState} : Reachable lines s →
      s.current_line < lines.length → run_step lines s = some s' →
      Reachable lines s'

/-! ### Concrete fixtures and auxiliary definitions used by the theorems -/

/-- A dispatch-level state fixture: two unequal naturals `a`, `b`, an equal
pair `a`, `c`, and one bound label. -/
def jltState : ProgState :=
  { vars := [("a", .Natural 1), ("b", .Natural 2), ("c", .Natural 1)],
    labels := [("L", 5)], current_line := 9, input := [], output := "" }

/-- The mnemonics that read or mutate a named variable: assignment, free,
I/O, conversion, the arithmetic, rounding, logical and list families. -/
def mutating_mnemonics : List String :=
  ["ADD", "SUB", "MUL", "DIV", "MOD", "ROUND", "FLOOR", "CEIL",
   "AND", "OR", "XOR", "NOT", "SET", "FREE", "PRINT", "INPUT", "CONVERT",
   "SLICE", "INDEX", "LEN", "INSERT"]

/-- Comma-space join, the separator scheme of `Formatter::debug_list`. -/
def joinCommaSpace : List String → String
  | [] => ""
  | [a] => a
  | a :: b :: t => a ++ ", " ++ joinCommaSpace (b :: t)

/-- Recognizer for the declare-variable response. -/
def respIsDeclare : CommandResponse → Bool
  | .Declare _ _ => true
  | _ => false

/-! ### Helper lemmas -/

@[simp] theorem lookupAssoc_nil {α : Type} (k : String) :
    lookupAssoc ([] : List (String × α)) k = none := rfl

theorem get_var_of_empty (s : ProgState) (hs : s.vars = []) (p : String) :
    get_var s p = none := by simp [get_var, hs]

/-- Cross-variant comparison: the derived `partial_cmp` compares the
discriminants, and the derived `PartialEq` is `false`. -/
theorem varPcmp_cross (v w : Variable) (h : varTag v ≠ varTag w) :
    varPcmp v w = some (compare (varTag v) (varTag w)) ∧ varBeq v w = false := by
  cases v <;> cases w <;> simp_all [varTag, varPcmp, varBeq]

theorem option_all_bind {α β : Type} (o : Option α) (f : α → Option β) (p : β → Bool) :
    ((o >>= f).all p) = o.all (fun a => (f a).all p) := by cases o <;> rfl

theorem option_all_bind' {α β : Type} (o : Option α) (f : α → Option β) (p : β → Bool) :
    ((o.bind f).all p) = o.all (fun a => (f a).all p) := by cases o <;> rfl

theorem option_all_true {α : Type} (o : Option α) :
    (o.all fun _ => true) = true := by cases o <;> rfl

theorem option_all_intro {α : Type} (o : Option α) (p : α → Bool)
    (h : ∀ a, p a = true) : o.all p = true := by cases o <;> simp [Option.all, h]

theorem option_bind_none_iff {α β : Type} (o : Option α) (f : α → Option β) :
    (o >>= f = none) ↔ ∀ a, o = some a → f a = none := by
  cases o <;> simp

theorem respIsDeclare_nothing : respIsDeclare .Nothing = false := rfl

theorem respIsDeclare_jeq (l : Nat) (v w : Variable) :
    respIsDeclare (Command.jeq l v w) = false := by
  unfold Command.jeq; split <;> rfl

theorem respIsDeclare_jne (l : Nat) (v w : Variable) :
    respIsDeclare (Command.jne l v w) = false := by
  unfold Command.jne; split <;> rfl

theorem respIsDeclare_jgt (l : Nat) (v w : Variable) :
    respIsDeclare (Command.jgt l v w) = false := by
  unfold Command.jgt; split <;> rfl

set_option maxHeartbeats 1600000 in
/-- No arm of the dispatch table produces a declare-variable response: the
only producer, `Command::decl`, is reachable solely through the never-built
`Command::Decl` constructor. -/
theorem dispatch_all_no_declare (s : ProgState) (cmd : UnparsedCommand) :
    ((dispatch s cmd).all fun r => !respIsDeclare r.1) = true := by
  unfold dispatch
  split
  all_goals try split
  all_goals repeat first
    | rfl
    | simp only [option_all_bind, option_all_bind', Option.all_some, Option.all_none,
        option_all_true, Bool.not_false, respIsDeclare_nothing, respIsDeclare_jeq,
        respIsDeclare_jne, respIsDeclare_jgt, Command.label, Command.free, Command.jmp]
    | split
    | (apply option_all_intro; intro _)

set_option maxHeartbeats 1600000 in
/-- When the variable table is empty, any successful command leaves it
empty. -/
theorem run_command_keeps_empty (s : ProgState) (cmd : UnparsedCommand)
    (hs : s.vars = []) :
    ((run_command s cmd).all fun t => t.vars.isEmpty) = true := by
  have hv : ∀ p, get_var s p = none := get_var_of_empty s hs
  unfold run_command dispatch
  simp only [option_all_bind, option_all_bind']
  split
  all_goals try split
  all_goals repeat first
    | rfl
    | simp only [option_all_bind, option_all_bind', Option.all_some, Option.all_none,
        option_all_true, hv, hs, get_num_var, get_float_var, get_bool_var,
        get_str_var, get_list_var, get_nat_var, apply_response, Command.label,
        Command.free, Command.jmp, lookupAssoc, List.isEmpty_nil, Option.none_bind]
    | split

set_option maxHeartbeats 3200000 in
/-- With an empty variable table, every mnemonic that reads or mutates a
named variable dispatches to a fatal lookup failure. -/
theorem run_command_mut_fatal (s : ProgState) (cmd : UnparsedCommand)
    (hs : s.vars = []) (hm : cmd.command_name ∈ mutating_mnemonics) :
    run_command s cmd = none := by
  have hv : ∀ p, get_var s p = none := get_var_of_empty s hs
  obtain ⟨nm, params⟩ := cmd
  simp only [mutating_mnemonics, List.mem_cons, List.not_mem_nil, or_false] at hm
  unfold run_command dispatch
  rcases hm with rfl | rfl | rfl | rfl | rfl | rfl | rfl | rfl | rfl | rfl | rfl
    | rfl | rfl | rfl | rfl | rfl | rfl | rfl | rfl | rfl | rfl <;>
  rcases params with _ | ⟨p0, _ | ⟨p1, _ | ⟨p2, _ | ⟨p3, rest⟩⟩⟩⟩ <;>
  simp [option_bind_none_iff, hv, hs, get_num_var, get_float_var, get_bool_var,
    get_str_var, get_list_var, get_nat_var, apply_response, Command.free, lookupAssoc]

theorem run_command_some_vars (s s' : ProgState) (cmd : UnparsedCommand)
    (hs : s.vars = []) (h : run_command s cmd = some s') : s'.vars = [] := by
  have hall := run_command_keeps_empty s cmd hs
  rw [h] at hall
  simpa [Option.all] using hall

theorem run_line_some_vars (s s' : ProgState) (line : String)
    (hs : s.vars = []) (h : run_line s line = some s') : s'.vars = [] := by
  unfold run_line at h
  split at h
  · exact absurd h (by simp)
  · injection h with h; rw [← h]; exact hs
  · exact run_command_some_vars s s' _ hs h

/-- The variable table of every state reachable during a run is empty. -/
theorem reachable_vars_empty (lines : List String) (s : ProgState)
    (h : Reachable lines s) : s.vars = [] := by
  induction h with
  | init input => rfl
  | step hr hcl hstep ih =>
      rename_i s0 s1
      unfold run_step at hstep
      cases hrl : run_line s0 (lines.getD s0.current_line "") with
      | none => rw [hrl] at hstep; exact absurd hstep (by simp)
      | some t =>
          rw [hrl] at hstep
          simp only [Option.map_some'] at hstep
          injection hstep with hstep
          rw [← hstep]
          exact run_line_some_vars s0 t _ ih hrl

/-! ### Claim theorems -/

/-- Claim C1 (code bug): executing `DECL x NATURAL` is claimed to create a
variable `x` initialized to the type-appropriate zero value.  The dispatch
arm for `"DECL"` instead constructs `Command::Label`, so the line defines a
LABEL named `x` at the current instruction pointer and never touches the
variable table.  The response-application code the claim describes exists
and is correct — `apply_response` on a `Declare` response does insert the
type-appropriate zero value — but no dispatch arm ever produces that
response. -/
theorem C1_decl_defines_label_not_variable :
    run_line (initState []) "DECL x NATURAL" =
      some { initState [] with labels := [("x", 0)] }
    ∧ (run_line (initState []) "DECL x NATURAL").map ProgState.vars = some []
    ∧ (∀ t : VarType, apply_response (initState []) (Command.decl "x" t)
        = some { initState [] with vars := [("x", zeroValue t)] })
    ∧ zeroValue .Natural = .Natural 0 ∧ zeroValue .Integer = .Int 0
    ∧ zeroValue .Float = .Float 0 ∧ zeroValue .Character = .Char '\x00'
    ∧ zeroValue .Boolean = .Bool false ∧ zeroValue .Str = .Str ""
    ∧ zeroValue .List = .List [] := by
  refine ⟨rfl, rfl, ?_, rfl, rfl, rfl, rfl, rfl, rfl, rfl⟩
  intro t
  cases t <;> rfl

/-- Claim C2 (confirmed): in every state reachable during a run the variable
table is empty; no dispatch arm ever yields the declare-variable response;
and with an empty table every instruction that reads or mutates a named
variable (`SET`, `FREE`, `PRINT`, `INPUT`, `CONVERT`, the arithmetic,
rounding, logical and list families) is a fatal lookup failure. -/
theorem C2_variable_table_always_empty :
    (∀ (lines : List String) (s : ProgState), Reachable lines s → s.vars = [])
    ∧ (∀ (s : ProgState) (cmd : UnparsedCommand) (r : CommandResponse × ProgState),
        dispatch s cmd = some r →
        ∀ (name : String) (t : VarType), r.1 ≠ CommandResponse.Declare name t)
    ∧ (∀ (s : ProgState) (cmd : UnparsedCommand), s.vars = [] →
        cmd.command_name ∈ mutating_mnemonics → run_command s cmd = none) := by
  refine ⟨reachable_vars_empty, ?_, run_command_mut_fatal⟩
  intro s cmd r h name t hcontra
  have hall := dispatch_all_no_declare s cmd
  rw [h] at hall
  simp [Option.all, hcontra, respIsDeclare] at hall

/-- Witness for C2 at concrete inputs. -/
theorem C2_witness :
    (initState []).vars = []
    ∧ run_command (initState []) ⟨"SET", ["x", "5"]⟩ = none := by
  refine ⟨C2_variable_table_always_empty.1 [] (initState []) (Reachable.init []), ?_⟩
  exact C2_variable_table_always_empty.2.2 (initState []) ⟨"SET", ["x", "5"]⟩ rfl
    (by simp [mutating_mnemonics])

/-- Claim C3 (code bug): `JLT` is claimed to jump exactly when the first
operand is strictly less than the second.  The dispatch arm for `"JLT"`
constructs `Command::Jeq`, so the executed test is equality: with
`a = Natural 1 < b = Natural 2` no jump happens, and with equal operands
`a = c = Natural 1` the jump is taken.  The unused `Command::jlt` function
implements the claimed strictly-less test. -/
theorem C3_jlt_dispatched_as_jeq :
    run_line jltState "JLT L a b" = some jltState
    ∧ run_line jltState "JLT L a c" = some { jltState with current_line := 5 }
    ∧ Command.jlt 5 (.Natural 1) (.Natural 2) = .Jump 5
    ∧ Command.jlt 5 (.Natural 1) (.Natural 1) = .Nothing :=
  ⟨rfl, rfl, rfl, rfl⟩

/-- Claim C4, counterexample: a blank line is claimed to be a non-fatal
no-op, but `from_line` calls `words.get(0).unwrap()` on the empty token
list, a panic that kills the run. -/
theorem C4_counterexample :
    run_line (initState []) "" = none
    ∧ run_line (initState []) "" ≠ some (initState []) := by
  refine ⟨rfl, ?_⟩
  intro hcontra
  exact Option.noConfusion hcontra

/-- Claim C4 as amended: a line with at least one token whose upper-cased
first token is not in the arity table is a non-fatal no-op (state returned
unchanged; the pointer advance happens in the loop); a line with no tokens
at all (blank or all-whitespace) is a fatal decode failure. -/
theorem C4_unrecognized_noop_blank_fatal (s : ProgState) (line : String) :
    (splitAsciiWhitespace line = [] → run_line s line = none)
    ∧ (∀ (w0 : String) (rest : List String), splitAsciiWhitespace line = w0 :: rest →
        lookupAssoc command_parameter_num_map (strUpper w0) = none →
        run_line s line = some s) := by
  constructor
  · intro h
    simp only [run_line, UnparsedCommand.from_line, h]
  · intro w0 rest h hnone
    simp only [run_line, UnparsedCommand.from_line, h, hnone, Option.isSome_none,
      Bool.false_eq_true, if_false]

/-- Witness for C4 at concrete inputs: a misspelled mnemonic is skipped, a
whitespace-only line is fatal. -/
theorem C4_witness :
    run_line (initState []) "FROB x y" = some (initState [])
    ∧ run_line (initState []) " " = none := by
  constructor
  · exact (C4_unrecognized_noop_blank_fatal (initState []) "FROB x y").2 "FROB" ["x", "y"]
      rfl rfl
  · exact (C4_unrecognized_noop_blank_fatal (initState []) " ").1 rfl

/-- Claim C5 (code bug): `INSERT` is claimed to append at `index == len`,
insert-and-shift below, and fail above.  `Command::insert` implements
exactly that, and `run_line` has a full `"INSERT"` dispatch arm — but
`command_parameter_num_map` never inserts an `"INSERT"` key, so an `INSERT`
source line is decoded as an unrecognized mnemonic and silently skipped;
the arm and `Command::insert` are unreachable from program text. -/
theorem C5_insert_opcode_unreachable :
    UnparsedCommand.from_line "INSERT x 0 5" command_parameter_num_map = .ok none
    ∧ run_line (initState []) "INSERT x 0 5" = some (initState [])
    ∧ lookupAssoc command_parameter_num_map "INSERT" = none
    ∧ (∀ (l : List Variable) (item : Variable),
        Command.insert l l.length item = some (l ++ [item]))
    ∧ (∀ (l : List Variable) (idx : Nat) (item : Variable), idx < l.length →
        Command.insert l idx item = some (l.take idx ++ item :: l.drop idx))
    ∧ (∀ (l : List Variable) (idx : Nat) (item : Variable), l.length < idx →
        Command.insert l idx item = none) := by
  refine ⟨rfl, rfl, rfl, ?_, ?_, ?_⟩
  · intro l item
    unfold Command.insert
    rw [if_pos rfl]
  · intro l idx item h
    unfold Command.insert
    rw [if_neg (by omega), if_pos (by omega)]
  · intro l idx item h
    unfold Command.insert
    rw [if_neg (by omega), if_neg (by omega)]

/-- Witness for C5 at concrete inputs: append at the length, shift below,
fail above. -/
theorem C5_witness :
    Command.insert [Variable.Natural 7] 1 (Variable.Natural 9)
      = some [Variable.Natural 7, Variable.Natural 9]
    ∧ Command.insert [Variable.Natural 7] 0 (Variable.Natural 9)
      = some [Variable.Natural 9, Variable.Natural 7]
    ∧ Command.insert [Variable.Natural 7] 2 (Variable.Natural 9) = none := by
  refine ⟨?_, ?_, ?_⟩
  · exact C5_insert_opcode_unreachable.2.2.2.1 [Variable.Natural 7] (Variable.Natural 9)
  · exact C5_insert_opcode_unreachable.2.2.2.2.1 [Variable.Natural 7] 0
      (Variable.Natural 9) (by decide)
  · exact C5_insert_opcode_unreachable.2.2.2.2.2 [Variable.Natural 7] 2
      (Variable.Natural 9) (by decide)

/-- Claim C6, counterexample: with a `List` destination, a non-`List` first
operand and a `List` second operand, `ADD` pushes the second operand as one
single (list-valued) element instead of contributing its elements: the
result is `[1, [2]]`, not the claimed flattening `[1, 2]`. -/
theorem C6_counterexample :
    Command.add (.List []) (.Natural 1) (.List [.Natural 2])
      = some (.List [.Natural 1, .List [.Natural 2]])
    ∧ Variable.List [Variable.Natural 1, Variable.List [Variable.Natural 2]]
        ≠ Variable.List [Variable.Natural 1, Variable.Natural 2] := by
  refine ⟨rfl, ?_⟩
  intro h
  simp at h

/-- Claim C6 as amended: `ADD` on a `List` destination flattens the second
operand only when the FIRST operand is itself a `List`; when the first
operand is not a `List`, both operands are appended as single elements,
even if the second is a `List`. -/
theorem C6_add_list_cases (d l1 : List Variable) (v1 v2 : Variable)
    (l2 : List Variable) :
    Command.add (.List d) (.List l1) (.List l2) = some (.List (l1 ++ l2))
    ∧ (varTag v2 ≠ 6 → Command.add (.List d) (.List l1) v2 = some (.List (l1 ++ [v2])))
    ∧ (varTag v1 ≠ 6 → Command.add (.List d) v1 v2 = some (.List [v1, v2])) := by
  refine ⟨rfl, ?_, ?_⟩
  · intro h
    cases v2 <;> simp_all [Command.add, varTag]
  · intro h
    cases v1 <;> simp_all [Command.add, varTag]

/-- Witness for C6 at concrete inputs. -/
theorem C6_witness :
    Command.add (.List [.Natural 9]) (.List [.Natural 1]) (.List [.Natural 2])
      = some (.List [.Natural 1, .Natural 2])
    ∧ Command.add (.List []) (.List [.Natural 1]) (.Natural 2)
      = some (.List [.Natural 1, .Natural 2])
    ∧ Command.add (.List []) (.Natural 1) (.Natural 2)
      = some (.List [.Natural 1, .Natural 2]) := by
  refine ⟨?_, ?_, ?_⟩
  · exact (C6_add_list_cases [.Natural 9] [.Natural 1] (.Natural 1) (.Natural 2)
      [.Natural 2]).1
  · exact (C6_add_list_cases [] [.Natural 1] (.Natural 1) (.Natural 2) []).2.1
      (by decide)
  · exact (C6_add_list_cases [] [] (.Natural 1) (.Natural 2) []).2.2 (by decide)

/-- Claim C7, counterexample: on cross-variant operands the conditional-jump
orderings are claimed never to hold, but the derived `PartialOrd` orders
distinct variants by declaration order, so `Natural 0 < Int 0` and
`Str "" > Natural 5` both hold and the jumps fire. -/
theorem C7_counterexample :
    Command.jlt 0 (.Natural 0) (.Int 0) = .Jump 0
    ∧ Command.jgt 0 (.Str "") (.Natural 5) = .Jump 0 :=
  ⟨rfl, rfl⟩

/-- Claim C7 as amended: across different variants the derived equality is
`false` (so `JEQ` never holds and `JNE` always holds), but the derived
ordering totally orders distinct variants by declaration order
(`Natural < Int < Float < Char < Bool < Str < List`), so the `JLT`/`JGT`
comparisons hold exactly according to the discriminant order rather than
never. -/
theorem C7_cross_variant_comparison (v w : Variable) (l : Nat)
    (h : varTag v ≠ varTag w) :
    varBeq v w = false
    ∧ Command.jeq l v w = .Nothing
    ∧ Command.jne l v w = .Jump l
    ∧ (Command.jlt l v w = .Jump l ↔ varTag v < varTag w)
    ∧ (Command.jgt l v w = .Jump l ↔ varTag w < varTag v) := by
  obtain ⟨h1, h2⟩ := varPcmp_cross v w h
  refine ⟨h2, ?_, ?_, ?_, ?_⟩
  · simp [Command.jeq, h2]
  · simp [Command.jne, h2]
  · rw [Command.jlt, h1]
    by_cases hlt : varTag v < varTag w
    · simp [Nat.compare_eq_lt.mpr hlt, hlt]
    · have : compare (varTag v) (varTag w) ≠ .lt := fun hc => hlt (Nat.compare_eq_lt.mp hc)
      simp [this, hlt]
  · rw [Command.jgt, h1]
    by_cases hgt : varTag w < varTag v
    · simp [Nat.compare_eq_gt.mpr hgt, hgt]
    · have : compare (varTag v) (varTag w) ≠ .gt := fun hc => hgt (Nat.compare_eq_gt.mp hc)
      simp [this, hgt]

/-- Witness for C7 at a concrete cross-variant pair. -/
theorem C7_witness :
    varBeq (.Natural 0) (.Int 0) = false
    ∧ Command.jne 3 (.Natural 0) (.Int 0) = .Jump 3
    ∧ Command.jlt 3 (.Natural 0) (.Int 0) = .Jump 3 := by
  obtain ⟨he, _, hne, hlt, _⟩ :=
    C7_cross_variant_comparison (.Natural 0) (.Int 0) 3 (by decide)
  exact ⟨he, hne, hlt.mpr (by decide)⟩

theorem displayVarList_chars (cs : List Char) :
    displayVarList (cs.map .Char) = joinCommaSpace (cs.map fun c => String.mk [c]) := by
  induction cs with
  | nil => rfl
  | cons c rest ih =>
      cases rest with
      | nil => rfl
      | cons c2 rest2 =>
          simp only [List.map_cons] at ih ⊢
          rw [displayVarList, joinCommaSpace, ih]
          rfl

/-- Claim C8, counterexample: converting `"hi"` to a `List` explodes it into
`[Char h, Char i]`, and converting that list into a `Str` destination goes
through the `Display` form of the LIST value, which is the bracketed
`Debug`-style rendering `"[h, i]"`, not the original text `"hi"`. -/
theorem C8_counterexample :
    (Command.convert (.List []) (.Str "hi")).bind
        (fun lv => Command.convert (.Str "") lv)
      = some (.Str "[h, i]")
    ∧ ("[h, i]" : String) ≠ "hi" := by
  exact ⟨rfl, by decide⟩

/-- Claim C8 as amended: for every string `s` and any destination contents,
`CONVERT` into a `List` yields one `Char` element per character of `s`, and
`CONVERT` of that list into a `Str` destination yields the bracketed,
comma-space-separated rendering of the characters — `"[" ++ c1 ++ ", " ++
c2 ++ ... ++ "]"` — never the original text (even the empty string becomes
`"[]"`). -/
theorem C8_roundtrip_is_bracketed (s d2 : String) (d : List Variable) :
    Command.convert (.List d) (.Str s) = some (.List (s.data.map .Char))
    ∧ Command.convert (.Str d2) (.List (s.data.map .Char))
      = some (.Str ("[" ++ joinCommaSpace (s.data.map fun c => String.mk [c]) ++ "]")) := by
  refine ⟨rfl, ?_⟩
  simp only [Command.convert, displayVar, displayVarList_chars]

theorem int_abs_toNat (k : Int) : (|k|).toNat = k.natAbs := by
  rw [Int.abs_eq_natAbs, Int.toNat_natCast]

theorem f32toU32_intCast (k : Int) : f32toU32 (k : Rat) = min k.toNat (2 ^ 32 - 1) := by
  unfold f32toU32 truncTZ
  by_cases hk : (k : Rat) < 0
  · rw [if_pos hk]
    have hk' : k < 0 := by exact_mod_cast hk
    rw [Int.toNat_of_nonpos (le_of_lt hk')]
    simp
  · rw [if_neg hk, if_pos (le_of_not_lt hk), Int.floor_intCast]

/-- Claim C9, counterexample: the claim says every rounding-family
instruction with a `Natural` destination stores the ABSOLUTE VALUE of the
rounded/floored/ceiled operand, which at `-2` would be `2`; `Command::ceil`
has no `.abs()`, so the negative ceiling saturates to `0` in the unsigned
cast instead. -/
theorem C9_counterexample :
    Command.ceil (.Natural 0) (-2 : Rat) = some (.Natural 0)
    ∧ min (⌈(-2 : Rat)⌉.natAbs) (2 ^ 32 - 1) = 2
    ∧ (0 : Nat) ≠ 2 := by
  have hc : ⌈(-2 : Rat)⌉ = -2 := by
    rw [Int.ceil_eq_iff] <;> norm_num
  refine ⟨?_, ?_, by decide⟩
  · unfold Command.ceil ceilF
    rw [hc]
    rw [show ((-2 : Int) : Rat) = ((-2 : Int) : Rat) from rfl, f32toU32_intCast]
    rfl
  · rw [hc]
    rfl

/-- Claim C9 as amended: with a `Natural` destination, `ROUND` and `FLOOR`
store the absolute value of the rounded/floored operand truncated to
unsigned, but `CEIL` casts the ceiled operand directly to unsigned with no
absolute value, so a non-positive ceiling stores `0` rather than its
magnitude. -/
theorem C9_natural_destination_casts (n : Nat) (q : Rat) :
    Command.round (.Natural n) q = some (.Natural (min (rustRound q).natAbs (2 ^ 32 - 1)))
    ∧ Command.floor (.Natural n) q = some (.Natural (min ⌊q⌋.natAbs (2 ^ 32 - 1)))
    ∧ Command.ceil (.Natural n) q = some (.Natural (min ⌈q⌉.toNat (2 ^ 32 - 1)))
    ∧ (⌈q⌉ ≤ 0 → Command.ceil (.Natural n) q = some (.Natural 0)) := by
  have habs : ∀ k : Int, absF (k : Rat) = ((|k| : Int) : Rat) := by
    intro k
    rw [absF, Int.cast_abs]
  refine ⟨?_, ?_, ?_, ?_⟩
  · unfold Command.round roundF
    rw [habs, f32toU32_intCast, int_abs_toNat]
  · unfold Command.floor floorF
    rw [habs, f32toU32_intCast, int_abs_toNat]
  · unfold Command.ceil ceilF
    rw [f32toU32_intCast]
  · intro hle
    unfold Command.ceil ceilF
    rw [f32toU32_intCast, Int.toNat_of_nonpos hle]
    rfl

/-- Witness for C9 at concrete inputs: `ROUND -2` stores `2`, `CEIL -2`
stores `0`. -/
theorem C9_witness :
    Command.round (.Natural 0) (-2 : Rat) = some (.Natural 2)
    ∧ Command.ceil (.Natural 0) (-2 : Rat) = some (.Natural 0) := by
  have hc : ⌈(-2 : Rat)⌉ = -2 := by
    rw [Int.ceil_eq_iff] <;> norm_num
  obtain ⟨hr, _, _, hc0⟩ := C9_natural_destination_casts 0 (-2 : Rat)
  constructor
  · rw [hr]
    have : rustRound (-2 : Rat) = -2 := by
      unfold rustRound
      rw [if_neg (by norm_num)]
      rw [show ((-2 : Rat) - 1 / 2) = (-5 : Rat) / 2 by norm_num]
      rw [Int.ceil_eq_iff] <;> norm_num
    rw [this]
    rfl
  · exact hc0 (by rw [hc]; norm_num)

theorem from_line_jmp (line : String) (name : String)
    (h : splitAsciiWhitespace line = ["JMP", name]) :
    UnparsedCommand.from_line line command_parameter_num_map =
      .ok (some ⟨"JMP", [name]⟩) := by
  simp only [UnparsedCommand.from_line, h]
  rfl

/-- Claim C10 (confirmed): a jump naming a label absent from the label table
is a fatal lookup failure; a jump to a bound label overwrites the
instruction pointer with the label's stored line (the line the `LABEL`
instruction itself executed on, which is what `LABEL` binds), and the loop
iteration then advances the pointer by one, so execution resumes on the
line immediately after the label's defining line, never re-executing it. -/
theorem C10_lazy_labels_and_jump_target (s : ProgState) (name : String) :
    (get_label s name = none → run_command s ⟨"JMP", [name]⟩ = none)
    ∧ (∀ k : Nat, get_label s name = some k →
        run_command s ⟨"JMP", [name]⟩ = some { s with current_line := k })
    ∧ (run_command s ⟨"LABEL", [name]⟩
        = some { s with labels := insertAssoc s.labels name s.current_line })
    ∧ (∀ (lines : List String) (k : Nat), get_label s name = some k →
        splitAsciiWhitespace (lines.getD s.current_line "") = ["JMP", name] →
        run_step lines s = some { s with current_line := k + 1 }) := by
  refine ⟨?_, ?_, rfl, ?_⟩
  · intro h
    simp [run_command, dispatch, h]
  · intro k hk
    simp [run_command, dispatch, hk, Command.jmp, apply_response]
  · intro lines k hk hline
    unfold run_step run_line
    rw [from_line_jmp _ _ hline]
    simp [run_command, dispatch, hk, Command.jmp, apply_response]

/-- Witness for C10: the forward jump `JMP END` from the start state (empty
label table) is fatal; `LABEL LOOP` on line 0 binds `LOOP ↦ 0`; and in the
two-line program `LABEL LOOP / JMP LOOP` the loop step at line 1 jumps to
the label line 0 and then advances, resuming at line 1 (the line after the
label, never re-running line 0). -/
theorem C10_witness :
    run_command (initState []) ⟨"JMP", ["END"]⟩ = none
    ∧ run_command (initState []) ⟨"LABEL", ["LOOP"]⟩
        = some { initState [] with labels := [("LOOP", 0)] }
    ∧ run_step ["LABEL LOOP", "JMP LOOP"]
        { initState [] with labels := [("LOOP", 0)], current_line := 1 }
        = some { initState [] with labels := [("LOOP", 0)], current_line := 1 } := by
  refine ⟨?_, ?_, ?_⟩
  · exact (C10_lazy_labels_and_jump_target (initState []) "END").1 rfl
  · exact (C10_lazy_labels_and_jump_target (initState []) "LOOP").2.2.1
  · exact (C10_lazy_labels_and_jump_target
      { initState [] with labels := [("LOOP", 0)], current_line := 1 } "LOOP").2.2.2
      ["LABEL LOOP", "JMP LOOP"] 0 rfl rfl
